import Mathlib

/-!
Shallow embedding of the `deck` Go package (a playing-card deck builder with
composable transforms) and proofs about it.

Go slices are modelled as `List Card`.  Go's `uint8` types `Suit` and `Rank`
are modelled as `Nat`; every conversion site where a value could exceed 255
applies `% 256` explicitly (the only such site is `Rank(i)` inside `Jokers`).
Go's `int` is modelled as `Int` where the source computes in `int`
(`absRank`); the values involved are tiny, so no wrap-around is modelled
there.

`sort.Slice(s, less)` sorts `s` in place with an arbitrary (not guaranteed
stable) comparison sort; its postcondition is that the result is a
permutation of the input that is sorted with respect to `less`.  We model it
as a deterministic comparison sort (`List.insertionSort` on the non-strict
relation `¬ less b a`).  Every theorem below that involves sorting relies only on
the postcondition (sorted permutation) on tie-free inputs, or compares two
calls with the identical comparator, so the choice of algorithm does not
matter.  The Go comparator closures receive the live slice and only ever
read `cards[i]`, `cards[j]`, so they are embedded at the element level
(`Card → Card → Bool`).

Mutation is modelled explicitly: for each transform `T` there is a
`TInputAfter` definition giving the contents of the caller's slice (its view
of length `len(cards)`) after `T` returns, read off from the source:
`sort.Slice` permutes the slice in place, while `Shuffle`, `Filter` and
`Deck` write only into a freshly allocated `ret`, and `Jokers` only appends
(which never changes the first `len(cards)` elements seen by the caller).
-/

namespace GoDeck

/-- Go: `type Suit uint8`.  All suit values used by the package are `0..4`. -/
abbrev Suit := Nat

/-- Go: `type Rank uint8`. -/
abbrev Rank := Nat

/-- `Spade Suit = iota` (0). -/
def Spade : Suit := 0
/-- `Diamond` (1). -/
def Diamond : Suit := 1
/-- `Club` (2). -/
def Club : Suit := 2
/-- `Heart` (3). -/
def Heart : Suit := 3
/-- `Joker` (4), the special sentinel suit. -/
def Joker : Suit := 4

/-- `Ace` (1); the `Rank` enumeration skips 0 via `_ Rank = iota`. -/
def Ace : Rank := 1
/-- `King` (13). -/
def King : Rank := 13
/-- `minRank = Ace`. -/
def minRank : Rank := Ace
/-- `maxRank = King`. -/
def maxRank : Rank := King

/-- `var suits = [...]Suit{Spade, Diamond, Club, Heart}`. -/
def suits : List Suit := [Spade, Diamond, Club, Heart]

/-- Go: `type Card struct { Suit; Rank }` — a plain pair of its two fields. -/
structure Card where
  suit : Suit
  rank : Rank
deriving DecidableEq, Repr

instance : Inhabited Card := ⟨⟨0, 0⟩⟩

/-- Suit names produced by the stringer-generated `Suit.String`.
Modelled from the spec: the generated stringer file is not part of the
sources given, and the spec fixes the rendering to the bare constant names
`Spade`, `Diamond`, `Club`, `Heart`, `Joker`. -/
def suitString : Suit → String
  | 0 => "Spade"
  | 1 => "Diamond"
  | 2 => "Club"
  | 3 => "Heart"
  | 4 => "Joker"
  | _ => ""

/-- Rank names produced by the stringer-generated `Rank.String`.
Modelled from the spec: the generated stringer file is not part of the
sources given, and the spec fixes the rendering to the constant names
`Ace` .. `King`. -/
def rankString : Rank → String
  | 1 => "Ace"
  | 2 => "Two"
  | 3 => "Three"
  | 4 => "Four"
  | 5 => "Five"
  | 6 => "Six"
  | 7 => "Seven"
  | 8 => "Eight"
  | 9 => "Nine"
  | 10 => "Ten"
  | 11 => "Jack"
  | 12 => "Queen"
  | 13 => "King"
  | _ => ""

/-- `func (c Card) String() string`: Jokers render as the bare suit name,
other cards as `"%s of %ss"` applied to the rank and suit names. -/
def CardString (c : Card) : String :=
  if c.suit = Joker then suitString c.suit
  else rankString c.rank ++ " of " ++ suitString c.suit ++ "s"

/-- The ranks visited by `for rank := minRank; rank <= maxRank; rank++`:
the 13 values `minRank .. maxRank`. -/
def standardRanks : List Rank := List.range' minRank (maxRank - minRank + 1)

/-- `func New(options ...func([]Card) []Card) []Card`: build one card per
(suit, rank) pair, suits in `suits` order, ranks `minRank..maxRank` within
each suit, then apply each option in order to the running deck. -/
def New (options : List (List Card → List Card)) : List Card :=
  let cards := suits.flatMap (fun suit => standardRanks.map (fun rank => ⟨suit, rank⟩))
  options.foldl (fun cards option => option cards) cards

/-- `func absRank(c Card) int`: `int(c.Suit) * int(maxRank) + int(c.Rank)`. -/
def absRank (c : Card) : Int := (c.suit : Int) * (maxRank : Int) + (c.rank : Int)

/-- `func Less(cards []Card) func(i, j int) bool`: the returned closure
compares the elements at the two indices of the live slice by `absRank`;
embedded at the element level. -/
def Less (cards : List Card) : Card → Card → Bool :=
  fun a b => absRank a < absRank b

/-- Model of `sort.Slice(cards, less)`: a comparison sort of `cards` with
respect to the strict comparator `less` (see the module docstring), i.e. a
sort with respect to the non-strict relation `¬ less b a`. -/
def sortSlice (less : Card → Card → Bool) (cards : List Card) : List Card :=
  List.insertionSort (fun a b => !(less b a) = true) cards

/-- `func DefaultSort(cards []Card) []Card`: `sort.Slice(cards, Less(cards))`,
then return the slice. -/
def DefaultSort (cards : List Card) : List Card := sortSlice (Less cards) cards

/-- `func Sort(less ...) func([]Card) []Card` (`Sort` is a reserved word in
Lean): the returned transform runs `sort.Slice(cards, less(cards))` and
returns the slice. -/
def Sort' (less : List Card → Card → Card → Bool) (cards : List Card) : List Card :=
  sortSlice (less cards) cards

/-- `func Shuffle(cards []Card) []Card`: `ret[i] = cards[perm[i]]` into a
fresh slice, where `perm = shuffleRand.Perm(len(cards))`.  The random
permutation is a parameter of the model; `rand.Perm(n)` guarantees it is a
permutation of `0..n-1`, which theorems take as a hypothesis. -/
def Shuffle (perm : List Nat) (cards : List Card) : List Card :=
  perm.map (fun j => cards.getD j default)

/-- `func Jokers(n int) func([]Card) []Card`: the transform appends, for
`i = 0 .. n-1`, a card `Card{Rank: Rank(i), Suit: Joker}`.  `Rank` is
`uint8`, so the conversion `Rank(i)` truncates to `i % 256`. -/
def Jokers (n : Nat) (cards : List Card) : List Card :=
  (List.range n).foldl (fun cards i => cards ++ [⟨Joker, i % 256⟩]) cards

/-- `func Filter(f func(card Card) bool) func([]Card) []Card`: the transform
appends to a fresh `ret` every card `c` of the input with `!f(c)`. -/
def Filter (f : Card → Bool) (cards : List Card) : List Card :=
  cards.foldl (fun ret c => if !(f c) then ret ++ [c] else ret) []

/-- `func Deck(n int) func([]Card) []Card`: the transform appends the whole
input to a fresh `ret`, `n` times. -/
def Deck (n : Nat) (cards : List Card) : List Card :=
  (List.range n).foldl (fun ret _ => ret ++ cards) []

/-- Contents of the caller's slice after `DefaultSort(cards)` returns:
`sort.Slice` permutes the slice in place, so the input now holds the sorted
order (the very slice that is returned). -/
def DefaultSortInputAfter (cards : List Card) : List Card := DefaultSort cards

/-- Contents of the caller's slice after `Sort(less)(cards)` returns:
`sort.Slice` permutes the slice in place. -/
def SortInputAfter (less : List Card → Card → Card → Bool) (cards : List Card) :
    List Card := Sort' less cards

/-- Contents of the caller's slice after `Shuffle(cards)` returns: the body
only reads `cards[j]` and writes into the fresh slice `ret`. -/
def ShuffleInputAfter (perm : List Nat) (cards : List Card) : List Card := cards

/-- Contents of the caller's slice (its view of length `len(cards)`) after
`Jokers(n)(cards)` returns: the body only appends, which never alters the
first `len(cards)` elements the caller sees. -/
def JokersInputAfter (n : Nat) (cards : List Card) : List Card := cards

/-- Contents of the caller's slice after `Filter(f)(cards)` returns: the
body only reads the input and appends to a fresh `ret`. -/
def FilterInputAfter (f : Card → Bool) (cards : List Card) : List Card := cards

/-- Contents of the caller's slice after `Deck(n)(cards)` returns: the body
only reads the input and appends to a fresh `ret`. -/
def DeckInputAfter (n : Nat) (cards : List Card) : List Card := cards

/-- The canonical 52-card deck as the spec words it: suit-major over the
four standard suits in order Spade, Diamond, Club, Heart, rank-minor over
Ace(1) .. King(13) within each suit. -/
def specCanonicalDeck : List Card :=
  (List.range 4).flatMap (fun s => (List.range 13).map (fun k => ⟨s, k + 1⟩))

/-! ### Helper lemmas -/

lemma defaultSort_perm (cards : List Card) :
    List.Perm (DefaultSort cards) cards :=
  List.perm_insertionSort _ cards

lemma sortRel_iff (cards : List Card) (a b : Card) :
    ((!(Less cards b a)) = true) ↔ absRank a ≤ absRank b := by
  simp [Less, Int.not_lt]

lemma defaultSort_sorted (cards : List Card) :
    List.Sorted (fun a b : Card => absRank a ≤ absRank b) (DefaultSort cards) := by
  haveI : IsTotal Card (fun a b : Card => (!(Less cards b a)) = true) :=
    ⟨fun a b => by
      rcases Int.le_total (absRank a) (absRank b) with h | h
      · exact Or.inl ((sortRel_iff cards a b).mpr h)
      · exact Or.inr ((sortRel_iff cards b a).mpr h)⟩
  haveI : IsTrans Card (fun a b : Card => (!(Less cards b a)) = true) :=
    ⟨fun a b c hab hbc => (sortRel_iff cards a c).mpr
      (le_trans ((sortRel_iff cards a b).mp hab) ((sortRel_iff cards b c).mp hbc))⟩
  have h := List.sorted_insertionSort
    (fun a b : Card => (!(Less cards b a)) = true) cards
  have h2 : List.Pairwise (fun a b : Card => absRank a ≤ absRank b)
      (List.insertionSort (fun a b : Card => (!(Less cards b a)) = true) cards) :=
    List.Pairwise.imp (fun hab => (sortRel_iff cards _ _).mp hab) h
  simpa [List.Sorted, DefaultSort, sortSlice] using h2

lemma sorted_lt_of_sorted_le_nodup (l : List Card)
    (hs : List.Sorted (fun a b : Card => absRank a ≤ absRank b) l)
    (hn : (l.map absRank).Nodup) :
    List.Sorted (fun a b : Card => absRank a < absRank b) l := by
  have hne : List.Pairwise (fun a b : Card => absRank a ≠ absRank b) l :=
    List.pairwise_map.mp hn
  exact (List.Pairwise.and hs hne).imp (fun h => lt_of_le_of_ne h.1 h.2)

lemma eq_canonical_of_perm_of_sorted (l : List Card)
    (hp : List.Perm l specCanonicalDeck)
    (hs : List.Sorted (fun a b : Card => absRank a < absRank b) l) :
    l = specCanonicalDeck := by
  haveI : IsAntisymm Card (fun a b : Card => absRank a < absRank b) :=
    ⟨fun a b h1 h2 => absurd h2 (Int.not_lt.mpr (Int.le_of_lt h1))⟩
  exact List.eq_of_perm_of_sorted hp hs (by decide)

lemma defaultSort_of_perm_canonical (l : List Card)
    (h : List.Perm l specCanonicalDeck) :
    DefaultSort l = specCanonicalDeck := by
  have hp : List.Perm (DefaultSort l) specCanonicalDeck :=
    (defaultSort_perm l).trans h
  refine eq_canonical_of_perm_of_sorted _ hp ?_
  refine sorted_lt_of_sorted_le_nodup _ (defaultSort_sorted l) ?_
  exact (hp.map absRank).nodup_iff.mpr (by decide)

lemma map_getD_range (l : List Card) (d : Card) :
    (List.range l.length).map (fun j => l.getD j d) = l := by
  induction l with
  | nil => simp
  | cons a t ih =>
    rw [List.length_cons, List.range_succ_eq_map, List.map_cons, List.map_map]
    simp only [Function.comp_def, List.getD_cons_zero, List.getD_cons_succ]
    rw [ih]

lemma jokers_eq_append (n : Nat) (cards : List Card) :
    Jokers n cards
      = cards ++ (List.range n).map (fun i => (⟨Joker, i % 256⟩ : Card)) := by
  induction n with
  | zero => simp [Jokers]
  | succ n ih =>
    rw [Jokers, List.range_succ, List.foldl_append]
    rw [Jokers] at ih
    simp [ih, List.range_succ]

lemma filter_loop (f : Card → Bool) (cards ret : List Card) :
    cards.foldl (fun ret c => if !(f c) then ret ++ [c] else ret) ret
      = ret ++ cards.filter (fun c => !(f c)) := by
  induction cards generalizing ret with
  | nil => simp
  | cons a t ih =>
    rw [List.foldl_cons]
    cases hfa : f a with
    | false =>
      rw [if_pos (show (!false) = true by decide)]
      rw [ih, List.filter_cons]
      simp [hfa, List.append_assoc]
    | true =>
      rw [if_neg (show ¬ ((!true) = true) by decide)]
      rw [ih, List.filter_cons]
      simp [hfa]

lemma filter_eq_filter (f : Card → Bool) (cards : List Card) :
    Filter f cards = cards.filter (fun c => !(f c)) := by
  have h := filter_loop f cards []
  simpa [Filter] using h

lemma deck_succ (n : Nat) (cards : List Card) :
    Deck (n + 1) cards = Deck n cards ++ cards := by
  show (List.range (n + 1)).foldl (fun ret _ => ret ++ cards) [] = Deck n cards ++ cards
  rw [List.range_succ, List.foldl_append, List.foldl_cons, List.foldl_nil]
  rfl

lemma flatten_replicate_succ (cards : List Card) (n : Nat) :
    (List.replicate (n + 1) cards).flatten
      = (List.replicate n cards).flatten ++ cards := by
  rw [List.replicate_succ', List.flatten_append, List.flatten_cons,
    List.flatten_nil, List.append_nil]

lemma deck_eq_flatten (n : Nat) (cards : List Card) :
    Deck n cards = (List.replicate n cards).flatten := by
  induction n with
  | zero => simp [Deck]
  | succ n ih => rw [deck_succ, ih, ← flatten_replicate_succ]

lemma deck_length (n : Nat) (cards : List Card) :
    (Deck n cards).length = n * cards.length := by
  induction n with
  | zero => simp [Deck]
  | succ n ih => rw [deck_succ]; simp [ih, Nat.succ_mul]

/-! ### Claim theorems -/

/-- C1: `New` with zero transform functions returns exactly the canonical
52-card deck: one card per (suit, rank) pair over the four standard suits
and the 13 ranks, suit-major (Spade, Diamond, Club, Heart) and rank-minor
(Ace..King within each suit). -/
theorem new_no_options_canonical :
    New [] = specCanonicalDeck ∧
    (New []).length = 52 ∧
    ((List.range 4).all fun s =>
      (List.range 13).all fun k => (New []).count (⟨s, k + 1⟩ : Card) == 1) = true :=
  ⟨by decide, by decide, by decide⟩

/-- C2: `DefaultSort` maps every permutation of the canonical 52-card deck
to the canonical suit-major, rank-minor ordering, and is idempotent on such
decks. -/
theorem defaultSort_canonicalizes (l : List Card)
    (h : List.Perm l specCanonicalDeck) :
    DefaultSort l = specCanonicalDeck ∧
    DefaultSort (DefaultSort l) = DefaultSort l := by
  have h1 := defaultSort_of_perm_canonical l h
  refine ⟨h1, ?_⟩
  rw [h1]
  exact defaultSort_of_perm_canonical _ (List.Perm.refl _)

/-- Witness for C2 at the concrete input: the canonical deck reversed. -/
theorem defaultSort_canonicalizes_witness :
    List.Perm specCanonicalDeck.reverse specCanonicalDeck ∧
    DefaultSort specCanonicalDeck.reverse = specCanonicalDeck :=
  ⟨List.reverse_perm specCanonicalDeck,
    (defaultSort_canonicalizes specCanonicalDeck.reverse
      (List.reverse_perm specCanonicalDeck)).1⟩

/-- C3 (counterexample): the claim that no transform mutates the deck it
receives is false: `DefaultSort` runs `sort.Slice` on the caller's slice,
so after the call the input slice holds the sorted order, not its original
contents — here on the concrete two-card input King of Hearts, Ace of
Spades. -/
theorem defaultSort_mutates_input :
    ¬ (DefaultSortInputAfter [⟨Heart, King⟩, ⟨Spade, Ace⟩]
        = [⟨Heart, King⟩, ⟨Spade, Ace⟩]) := by decide

/-- C3 (amended): `Shuffle`, `Jokers(n)`, `Filter(p)` and `Deck(n)` leave
the input slice's contents unchanged, while `DefaultSort` and `Sort(less)`
sort the input slice in place, so after they return the input holds the
returned (sorted) sequence. -/
theorem transform_input_effects (cards : List Card) (perm : List Nat)
    (n m : Nat) (f : Card → Bool) (less : List Card → Card → Card → Bool) :
    ShuffleInputAfter perm cards = cards ∧
    JokersInputAfter n cards = cards ∧
    FilterInputAfter f cards = cards ∧
    DeckInputAfter m cards = cards ∧
    DefaultSortInputAfter cards = DefaultSort cards ∧
    SortInputAfter less cards = Sort' less cards :=
  ⟨rfl, rfl, rfl, rfl, rfl, rfl⟩

/-- C4: for any input deck, `Shuffle` (with the permutation supplied by
`rand.Perm(len(cards))`, i.e. any permutation of `0..n-1`) returns a deck of
the same length that is a permutation of the input's cards, and leaves the
input slice unchanged. -/
theorem shuffle_is_permutation (perm : List Nat) (cards : List Card)
    (h : List.Perm perm (List.range cards.length)) :
    (Shuffle perm cards).length = cards.length ∧
    List.Perm (Shuffle perm cards) cards ∧
    ShuffleInputAfter perm cards = cards := by
  refine ⟨?_, ?_, rfl⟩
  · rw [Shuffle, List.length_map, h.length_eq, List.length_range]
  · have h2 := h.map (fun j => cards.getD j default)
    rw [map_getD_range cards default] at h2
    exact h2

/-- Witness for C4 at a concrete three-card deck and permutation. -/
theorem shuffle_is_permutation_witness :
    List.Perm [2, 0, 1]
      (List.range ([⟨Spade, Ace⟩, ⟨Heart, King⟩, ⟨Joker, 0⟩] : List Card).length) ∧
    List.Perm (Shuffle [2, 0, 1] [⟨Spade, Ace⟩, ⟨Heart, King⟩, ⟨Joker, 0⟩])
      [⟨Spade, Ace⟩, ⟨Heart, King⟩, ⟨Joker, 0⟩] :=
  ⟨by decide,
    (shuffle_is_permutation [2, 0, 1] [⟨Spade, Ace⟩, ⟨Heart, King⟩, ⟨Joker, 0⟩]
      (by decide)).2.1⟩

/-- C5 (counterexample): `Rank` is `uint8`, so the conversion `Rank(i)`
truncates; at `n = 257` the last appended joker has rank `256 % 256 = 0`,
not `256`, so the appended ranks are not `0..n-1` for every `n ≥ 0`. -/
theorem jokers_rank_wraps_at_257 :
    ¬ (Jokers 257 [] = (List.range 257).map (fun i => (⟨Joker, i⟩ : Card))) := by
  intro heq
  have h1 : (Jokers 257 []).getD 256 default = ⟨Joker, 0⟩ := by
    rw [jokers_eq_append]; decide
  rw [heq] at h1
  have h2 : ((List.range 257).map (fun i => (⟨Joker, i⟩ : Card))).getD 256 default
      = ⟨Joker, 256⟩ := by decide
  rw [h2] at h1
  exact absurd (congrArg Card.rank h1) (by decide)

/-- C5 (amended): `Jokers n` keeps the input's cards unchanged and in order
and appends exactly `n` cards with suit `Joker` whose ranks are
`i % 256` for `i = 0..n-1`; whenever `n ≤ 256` these ranks are exactly
`0..n-1` in order. -/
theorem jokers_appends_jokers (n : Nat) (cards : List Card) :
    Jokers n cards
      = cards ++ (List.range n).map (fun i => (⟨Joker, i % 256⟩ : Card)) ∧
    (n ≤ 256 →
      Jokers n cards = cards ++ (List.range n).map (fun i => (⟨Joker, i⟩ : Card))) := by
  refine ⟨jokers_eq_append n cards, fun hn => ?_⟩
  rw [jokers_eq_append n cards]
  congr 1
  apply List.map_congr_left
  intro i hi
  have : i < n := List.mem_range.mp hi
  have : i % 256 = i := Nat.mod_eq_of_lt (lt_of_lt_of_le this hn)
  rw [this]

/-- Witness for C5 (amended) at `n = 3` on a one-card deck. -/
theorem jokers_appends_jokers_witness :
    3 ≤ 256 ∧
    Jokers 3 [⟨Spade, Ace⟩]
      = [⟨Spade, Ace⟩] ++ (List.range 3).map (fun i => (⟨Joker, i⟩ : Card)) :=
  ⟨by decide, (jokers_appends_jokers 3 [⟨Spade, Ace⟩]).2 (by decide)⟩

/-- C6: `Filter f` returns exactly the cards of the input for which `f` is
false, in their original relative order, and when `f` holds of every card
the result is the empty deck. -/
theorem filter_keeps_non_matching (f : Card → Bool) (cards : List Card) :
    Filter f cards = cards.filter (fun c => !(f c)) ∧
    ((∀ c ∈ cards, f c = true) → Filter f cards = []) := by
  refine ⟨filter_eq_filter f cards, fun h => ?_⟩
  rw [filter_eq_filter f cards]
  rw [List.filter_eq_nil_iff]
  intro c hc
  simp [h c hc]

/-- Witness for C6: a predicate matching every card empties the full deck. -/
theorem filter_keeps_non_matching_witness :
    (∀ c ∈ New [], (fun _ : Card => true) c = true) ∧
    Filter (fun _ : Card => true) (New []) = [] :=
  ⟨fun _ _ => rfl, (filter_keeps_non_matching (fun _ : Card => true) (New [])).2
    (fun _ _ => rfl)⟩

/-- C7: `Deck n` returns the concatenation of `n` back-to-back copies of
the input, of length `n * len(input)`; `Deck 0` is the empty deck and
`Deck 1` returns the input order unchanged. -/
theorem deck_multiplies (n : Nat) (cards : List Card) :
    Deck n cards = (List.replicate n cards).flatten ∧
    (Deck n cards).length = n * cards.length ∧
    Deck 0 cards = [] ∧
    Deck 1 cards = cards := by
  refine ⟨deck_eq_flatten n cards, deck_length n cards, rfl, ?_⟩
  rw [deck_eq_flatten]
  simp

/-- C8: applying `Sort` with any less-function generator that agrees with
the library's `Less` produces exactly the deck `DefaultSort` produces. -/
theorem sort_with_default_less (less : List Card → Card → Card → Bool)
    (cards : List Card) (h : ∀ cs a b, less cs a b = Less cs a b) :
    Sort' less cards = DefaultSort cards := by
  have hl : less cards = Less cards :=
    funext fun a => funext fun b => h cards a b
  rw [Sort', hl, DefaultSort]

/-- Witness for C8: the library's own `Less` on the freshly built deck. -/
theorem sort_with_default_less_witness :
    (∀ cs a b, Less cs a b = Less cs a b) ∧
    Sort' Less (New []) = DefaultSort (New []) :=
  ⟨fun _ _ _ => rfl, sort_with_default_less Less (New []) (fun _ _ _ => rfl)⟩

/-- C9: a Joker card renders as the bare suit name, and a card of one of
the four standard suits with a rank Ace..King renders as
rank name, " of ", suit name, "s". -/
theorem cardString_rendering (c : Card) :
    (c.suit = Joker → CardString c = suitString c.suit) ∧
    (c.suit < 4 → Ace ≤ c.rank → c.rank ≤ King →
      CardString c = rankString c.rank ++ " of " ++ suitString c.suit ++ "s") := by
  constructor
  · intro h
    rw [CardString, if_pos h]
  · intro h _ _
    rw [CardString, if_neg (show ¬ (c.suit = Joker) from Nat.ne_of_lt h)]

/-- Witness for C9 at the Ace of Spades and a Joker. -/
theorem cardString_rendering_witness :
    CardString ⟨Spade, Ace⟩ = "Ace of Spades" ∧
    CardString ⟨Joker, 0⟩ = "Joker" := by
  constructor
  · have h := (cardString_rendering ⟨Spade, Ace⟩).2 (by decide) (by decide) (by decide)
    exact h.trans (by decide)
  · have h := (cardString_rendering ⟨Joker, 0⟩).1 rfl
    exact h.trans (by decide)

/-- C10: a Joker with rank 0 and the King of Hearts both have absolute rank
52, so the default comparison `Less` reports neither as less than the other
(Jokers are not guaranteed to sort after all standard cards). -/
theorem joker_zero_ties_king_of_hearts :
    absRank ⟨Joker, 0⟩ = 52 ∧
    absRank ⟨Heart, King⟩ = 52 ∧
    Less [⟨Joker, 0⟩, ⟨Heart, King⟩] ⟨Joker, 0⟩ ⟨Heart, King⟩ = false ∧
    Less [⟨Joker, 0⟩, ⟨Heart, King⟩] ⟨Heart, King⟩ ⟨Joker, 0⟩ = false := by
  decide

end GoDeck
